import Mathlib

/-!
toy-dump: the dual-mode dump driver of the toy compiler

A shallow embedding of `src/bin/toy-dump.cpp`.  The driver opens the input
with `std::ifstream`, then dispatches on the `-emit` action: it prints the
lexer's tokens, or parses and hands the module to `toy::dump`, or reports
that no action was given.

What the driver calls but does not define is a parameter of the embedding:
the ABI demangler `abi::__cxa_demangle`, the file system seen through
`std::ifstream`, and the `toy` module's `lex` and `parse`.  A run is
described by the ordered trace of what the driver does (writes to the two
streams, calls of the collaborators) and by the value `main` returns.
-/

namespace ToyDump

/-- What `abi::__cxa_demangle(name, NULL, NULL, &status)` hands back: the
returned buffer (`none` for a null pointer) and the value stored in `status`. -/
structure CxaResult where
  res : Option String
  status : Int
deriving DecidableEq

/-- The contract documented for `abi::__cxa_demangle`: status 0 means the
demangling succeeded and a buffer is returned. -/
def AbiContract (cxa_demangle : String → CxaResult) : Prop :=
  ∀ name, (cxa_demangle name).status = 0 → (cxa_demangle name).res.isSome = true

/-- `std::string demangle(const char* name)`, lines 14-18:
`return (status == 0) ? res.get() : name;`.  The result is `none` when a
`std::string` would be built from a null pointer, which has no defined value. -/
def demangle (cxa_demangle : String → CxaResult) (name : String) : Option String :=
  let r := cxa_demangle name
  if r.status = 0 then r.res else some name

/-- `enum Action`, lines 27-31. -/
inductive Action where
  | None
  | DumpTokens
  | DumpAST
deriving DecidableEq

/-- The positional option `filename`, lines 20-25: `cl::init("-")` is the value
when no positional argument is given. -/
def filename (positional : Option String) : String :=
  positional.getD "-"

/-- The option `emit_action`, lines 33-40: `-emit=tokens` and `-emit=ast` are
the two registered values; with the flag omitted the option keeps its
zero value `None`.  Any other value is rejected by the option reader before
`main` goes on (`none`). -/
def emit_action (flag : Option String) : Option Action :=
  match flag with
  | none => some Action.None
  | some v =>
    if v = "tokens" then some Action.DumpTokens
    else if v = "ast" then some Action.DumpAST
    else none

/-- An element of the range returned by `toy::lexer::lex`, as the driver
observes it: `typeid_name` is what `typeid(token).name()` evaluates to for the
element (its kind discriminant, as an implementation-defined identifier) and
`text` is the member `token.text`. -/
structure Token where
  typeid_name : String
  text : String
deriving DecidableEq

/-- The collaborators of the driver.  `ifstream path` is the content read
through `std::ifstream is{path, std::ios::in}` when `is.is_open()` holds and
`none` when it does not; `stdin` is the content of the standard input of the
process; `lex` and `parse` are `toy::lexer::lex` and `toy::parse` (a null
module is `none`). -/
structure World (Module : Type) where
  cxa_demangle : String → CxaResult
  ifstream : String → Option String
  stdin : String
  lex : String → List Token
  parse : String → Option Module

/-- One observable step of a run, in program order. -/
inductive Event (Module : Type) where
  | cout (s : String)
  | cerr (s : String)
  | lex (input : String)
  | parse (input : String)
  | dump (mod : Module)
deriving DecidableEq

/-- A finished run: its trace and the value returned by `main`; `status` is
`none` when the run ends without reaching a `return`. -/
structure Outcome (Module : Type) where
  trace : List (Event Module)
  status : Option Int
deriving DecidableEq

/-- The loop of lines 53-54 followed by `return 0` of line 55.  Each iteration
writes `"["`, the demangled `typeid` name, `"] "`, `token.text` and
`std::endl`, in this order. -/
def dumpTokens {Module : Type} (cxa_demangle : String → CxaResult) :
    List Token → List (Event Module) → Outcome Module
  | [], tr => ⟨tr, some 0⟩
  | token :: rest, tr =>
    match demangle cxa_demangle token.typeid_name with
    | none => ⟨tr ++ [Event.cout "["], none⟩
    | some kind =>
      dumpTokens cxa_demangle rest
        (tr ++ [Event.cout "[", Event.cout kind, Event.cout "] ",
                Event.cout token.text, Event.cout "\n"])

/-- `int main`, lines 42-70, after `cl::ParseCommandLineOptions` has set
`filename` and `emit_action`. -/
def main {Module : Type} (w : World Module) (filename : String) (emit_action : Action) :
    Outcome Module :=
  match w.ifstream filename with
  | none =>
    ⟨[Event.cerr "cannot open '", Event.cerr filename, Event.cerr "'", Event.cerr "\n"], some 1⟩
  | some is =>
    match emit_action with
    | Action.DumpTokens => dumpTokens w.cxa_demangle (w.lex is) [Event.lex is]
    | Action.DumpAST =>
      match w.parse is with
      | none => ⟨[Event.parse is], some 1⟩
      | some mod => ⟨[Event.parse is, Event.dump mod], some 0⟩
    | _ =>
      ⟨[Event.cerr "No action specified (parsing only?), use -emit=<action>", Event.cerr "\n"],
        some 0⟩

/-! ## Observations on a trace -/

/-- The bytes written to `std::cout`, in order. -/
def stdout {Module : Type} : List (Event Module) → String
  | [] => ""
  | Event.cout s :: tr => s ++ stdout tr
  | _ :: tr => stdout tr

/-- The bytes written to `std::cerr`, in order. -/
def stderr {Module : Type} : List (Event Module) → String
  | [] => ""
  | Event.cerr s :: tr => s ++ stderr tr
  | _ :: tr => stderr tr

/-- Number of calls of `toy::lexer::lex`. -/
def lexCalls {Module : Type} : List (Event Module) → Nat
  | [] => 0
  | Event.lex _ :: tr => lexCalls tr + 1
  | _ :: tr => lexCalls tr

/-- Number of calls of `toy::parse`. -/
def parseCalls {Module : Type} : List (Event Module) → Nat
  | [] => 0
  | Event.parse _ :: tr => parseCalls tr + 1
  | _ :: tr => parseCalls tr

/-- The modules `toy::dump` was called on, in order. -/
def dumpCalls {Module : Type} : List (Event Module) → List Module
  | [] => []
  | Event.dump m :: tr => m :: dumpCalls tr
  | _ :: tr => dumpCalls tr

/-- The display name the dump prints for a token: `demangle(typeid(token).name())`. -/
def kindName (cxa_demangle : String → CxaResult) (t : Token) : Option String :=
  demangle cxa_demangle t.typeid_name

/-- The line of the dump for one token, without its terminator. -/
def tokenLine (kind : String) (t : Token) : String :=
  "[" ++ kind ++ "] " ++ t.text

/-! ## Lines of an output -/

/-- Number of line terminators in an output, that is the number of lines it
emits. -/
def lineTerminators (out : String) : Nat :=
  out.data.count '\n'

/-- Splits characters at every line terminator; `cur` holds, reversed, the
characters of the line being read.  Characters after the last terminator form
a last, unterminated line. -/
def splitLines : List Char → List Char → List String
  | [], cur => if cur = [] then [] else [String.mk cur.reverse]
  | c :: cs, cur =>
    if c = '\n' then String.mk cur.reverse :: splitLines cs []
    else splitLines cs (c :: cur)

/-- The lines of an output, in order, without their terminators. -/
def outputLines (out : String) : List String :=
  splitLines out.data []

/-- A line matches the pattern `\[.+\] .*`: an opening bracket, a non-empty
kind name, a closing bracket, one space and a text, where neither the name
nor the text holds a line break. -/
def MatchesLine (line : String) : Prop :=
  ∃ kind text : String, line = "[" ++ kind ++ "] " ++ text ∧
    kind ≠ "" ∧ '\n' ∉ kind.data ∧ '\n' ∉ text.data

/-! ## Concrete collaborators used to instantiate the theorems -/

/-- A demangler excerpt that follows the Itanium ABI on the identifiers it
knows: `3Foo` is the class `Foo`, and `Z1fvE1T`, `Z1fvE1T_0` are two
block-scope classes named `T` declared in `f()`, whose discriminator the
readable form leaves out.  Everything else is reported as not a valid
mangled name (status -2, null buffer). -/
def sampleDemangle (name : String) : CxaResult :=
  if name = "3Foo" then ⟨some "Foo", 0⟩
  else if name = "Z1fvE1T" then ⟨some "f()::T", 0⟩
  else if name = "Z1fvE1T_0" then ⟨some "f()::T", 0⟩
  else ⟨none, -2⟩

/-- A world with three readable files: `a.toy` holds `x = 1`, `bad.toy` holds
the truncated `x = ` and `empty.toy` is empty.  The lexer yields no token on
the empty text and two tokens otherwise; the parser accepts exactly the text
`x = 1`. -/
def sampleWorld : World String where
  cxa_demangle := sampleDemangle
  ifstream := fun path =>
    if path = "a.toy" then some "x = 1"
    else if path = "bad.toy" then some "x = "
    else if path = "empty.toy" then some ""
    else none
  stdin := "y = 2"
  lex := fun src => if src = "" then [] else [⟨"3Foo", "x"⟩, ⟨"Bar", "="⟩]
  parse := fun src => if src = "x = 1" then some "module" else none

/-- A world whose file system has no entry that can be opened, while the
standard input holds a program. -/
def noFileWorld : World String where
  cxa_demangle := sampleDemangle
  ifstream := fun _ => none
  stdin := "x = 1"
  lex := fun _ => [⟨"3Foo", "x"⟩]
  parse := fun _ => some "module"

/-- A world whose lexer returns one token, a string literal that spans two
lines. -/
def multiLineWorld : World String where
  cxa_demangle := sampleDemangle
  ifstream := fun _ => some "\"a\nb\""
  stdin := ""
  lex := fun _ => [⟨"3Foo", "a\nb"⟩]
  parse := fun _ => none

/-! ## Structure of the token loop -/

theorem stdout_append {Module : Type} (a b : List (Event Module)) :
    stdout (a ++ b) = stdout a ++ stdout b := by
  induction a with
  | nil => simp [stdout]
  | cons e a ih => cases e <;> simp [stdout, ih, String.append_assoc]

theorem lexCalls_append {Module : Type} (a b : List (Event Module)) :
    lexCalls (a ++ b) = lexCalls a + lexCalls b := by
  induction a with
  | nil => simp [lexCalls]
  | cons e a ih => cases e <;> simp [lexCalls, ih]; omega

theorem parseCalls_append {Module : Type} (a b : List (Event Module)) :
    parseCalls (a ++ b) = parseCalls a + parseCalls b := by
  induction a with
  | nil => simp [parseCalls]
  | cons e a ih => cases e <;> simp [parseCalls, ih]; omega

theorem dumpCalls_append {Module : Type} (a b : List (Event Module)) :
    dumpCalls (a ++ b) = dumpCalls a ++ dumpCalls b := by
  induction a with
  | nil => simp [dumpCalls]
  | cons e a ih => cases e <;> simp [dumpCalls, ih]

/-- The token loop only ever appends writes to `std::cout` to the trace. -/
theorem dumpTokens_trace {Module : Type} (cxa : String → CxaResult) (ts : List Token)
    (tr : List (Event Module)) :
    ∃ post : List (Event Module),
      (dumpTokens cxa ts tr).trace = tr ++ post ∧ ∀ e ∈ post, ∃ s, e = Event.cout s := by
  induction ts generalizing tr with
  | nil => exact ⟨[], by simp [dumpTokens]⟩
  | cons t ts ih =>
    unfold dumpTokens
    cases hd : demangle cxa t.typeid_name with
    | none => exact ⟨[Event.cout "["], by simp⟩
    | some k =>
      obtain ⟨post, hpost, hall⟩ := ih
        (tr ++ [Event.cout "[", Event.cout k, Event.cout "] ", Event.cout t.text, Event.cout "\n"])
      refine ⟨[Event.cout "[", Event.cout k, Event.cout "] ", Event.cout t.text,
        Event.cout "\n"] ++ post, ?_, ?_⟩
      · simpa [List.append_assoc] using hpost
      · intro e he
        rcases List.mem_append.mp he with h | h
        · simp at h
          rcases h with h | h | h | h | h <;> exact ⟨_, h⟩
        · exact hall e h

theorem lexCalls_couts {Module : Type} (post : List (Event Module))
    (h : ∀ e ∈ post, ∃ s, e = Event.cout s) : lexCalls post = 0 := by
  induction post with
  | nil => rfl
  | cons e post ih =>
    obtain ⟨s, rfl⟩ := h e (List.mem_cons_self _ _)
    simpa [lexCalls] using ih (fun e he => h e (List.mem_cons_of_mem _ he))

theorem parseCalls_couts {Module : Type} (post : List (Event Module))
    (h : ∀ e ∈ post, ∃ s, e = Event.cout s) : parseCalls post = 0 := by
  induction post with
  | nil => rfl
  | cons e post ih =>
    obtain ⟨s, rfl⟩ := h e (List.mem_cons_self _ _)
    simpa [parseCalls] using ih (fun e he => h e (List.mem_cons_of_mem _ he))

theorem dumpCalls_couts {Module : Type} (post : List (Event Module))
    (h : ∀ e ∈ post, ∃ s, e = Event.cout s) : dumpCalls post = [] := by
  induction post with
  | nil => rfl
  | cons e post ih =>
    obtain ⟨s, rfl⟩ := h e (List.mem_cons_self _ _)
    simpa [dumpCalls] using ih (fun e he => h e (List.mem_cons_of_mem _ he))

/-- Under the ABI contract `demangle` always yields a string. -/
theorem demangle_isSome (cxa : String → CxaResult) (habi : AbiContract cxa) (name : String) :
    ∃ s, demangle cxa name = some s := by
  unfold demangle
  by_cases h : (cxa name).status = 0
  · have := habi name h
    simp only [h, if_true]
    exact Option.isSome_iff_exists.mp this
  · exact ⟨name, by simp [h]⟩

/-- The status of a token dump is 0 as soon as every name resolves to a string. -/
theorem dumpTokens_status {Module : Type} (cxa : String → CxaResult) (habi : AbiContract cxa)
    (ts : List Token) (tr : List (Event Module)) :
    (dumpTokens cxa ts tr).status = some 0 := by
  induction ts generalizing tr with
  | nil => rfl
  | cons t ts ih =>
    obtain ⟨k, hk⟩ := demangle_isSome cxa habi t.typeid_name
    unfold dumpTokens
    simp only [hk]
    exact ih _

theorem sampleDemangle_contract : AbiContract sampleDemangle := by
  intro name h
  unfold sampleDemangle at h ⊢
  split_ifs at h ⊢ <;> simp_all

/-! ## Strings -/

theorem join_cons (a : String) (l : List String) :
    String.join (a :: l) = a ++ String.join l := by
  apply String.ext
  simp [String.join_eq, String.data_append]

theorem join_append (a b : List String) :
    String.join (a ++ b) = String.join a ++ String.join b := by
  induction a with
  | nil => simp [String.join]
  | cons x a ih => simp [join_cons, ih, String.append_assoc]

/-- What the token loop writes when every name resolves: the lines of the
tokens, one after the other, and the loop ends in `return 0`. -/
theorem stdout_dumpTokens {Module : Type} (cxa : String → CxaResult) (name : Token → String)
    (ts : List Token) (tr : List (Event Module))
    (h : ∀ t ∈ ts, demangle cxa t.typeid_name = some (name t)) :
    stdout (dumpTokens cxa ts tr).trace
      = stdout tr ++ String.join (ts.map fun t => "[" ++ name t ++ "] " ++ t.text ++ "\n") ∧
    (dumpTokens cxa ts tr).status = some 0 := by
  induction ts generalizing tr with
  | nil => simp [dumpTokens, String.join]
  | cons t ts ih =>
    have ht := h t (List.mem_cons_self _ _)
    have hts : ∀ u ∈ ts, demangle cxa u.typeid_name = some (name u) :=
      fun u hu => h u (List.mem_cons_of_mem _ hu)
    unfold dumpTokens
    simp only [ht]
    obtain ⟨h1, h2⟩ := ih
      (tr ++ [Event.cout "[", Event.cout (name t), Event.cout "] ", Event.cout t.text,
        Event.cout "\n"]) hts
    refine ⟨?_, h2⟩
    rw [h1, stdout_append, List.map_cons, join_cons]
    simp [stdout, String.append_assoc]

/-- Under the ABI contract every token has a display name. -/
theorem kindName_total (cxa : String → CxaResult) (habi : AbiContract cxa) :
    ∃ name : Token → String, ∀ t, kindName cxa t = some (name t) := by
  refine ⟨fun t => (kindName cxa t).getD "", fun t => ?_⟩
  obtain ⟨s, hs⟩ := demangle_isSome cxa habi t.typeid_name
  simp [kindName, hs]

/-! ## Lines -/

theorem splitLines_line (l rest cur : List Char) (h : '\n' ∉ l) :
    splitLines (l ++ '\n' :: rest) cur = String.mk (cur.reverse ++ l) :: splitLines rest [] := by
  induction l generalizing cur with
  | nil => simp [splitLines]
  | cons c l ih =>
    have hc : c ≠ '\n' := fun e => h (by simp [e])
    have hl : '\n' ∉ l := fun m => h (List.mem_cons_of_mem _ m)
    simp [splitLines, hc, ih (c :: cur) hl]

theorem outputLines_join (ls : List String) (h : ∀ l ∈ ls, '\n' ∉ l.data) :
    outputLines (String.join (ls.map fun l => l ++ "\n")) = ls := by
  induction ls with
  | nil => simp [outputLines, String.join, splitLines]
  | cons l ls ih =>
    have hl := h l (List.mem_cons_self _ _)
    have hls : ∀ m ∈ ls, '\n' ∉ m.data := fun m hm => h m (List.mem_cons_of_mem _ hm)
    have ih2 := ih hls
    unfold outputLines at ih2 ⊢
    rw [List.map_cons, join_cons]
    have e : (l ++ "\n" ++ String.join (ls.map fun l => l ++ "\n")).data
        = l.data ++ '\n' :: (String.join (ls.map fun l => l ++ "\n")).data := by
      simp [String.data_append]
    rw [e, splitLines_line _ _ _ hl, ih2]
    simp

theorem lineTerminators_join (ls : List String) (h : ∀ l ∈ ls, '\n' ∉ l.data) :
    lineTerminators (String.join (ls.map fun l => l ++ "\n")) = ls.length := by
  induction ls with
  | nil => simp [lineTerminators, String.join]
  | cons l ls ih =>
    have hl := h l (List.mem_cons_self _ _)
    have hls : ∀ m ∈ ls, '\n' ∉ m.data := fun m hm => h m (List.mem_cons_of_mem _ hm)
    have ih2 := ih hls
    unfold lineTerminators at ih2 ⊢
    rw [List.map_cons, join_cons]
    generalize String.join (ls.map fun l => l ++ "\n") = rest at ih2 ⊢
    have e : (l ++ "\n" ++ rest).data = l.data ++ '\n' :: rest.data := by
      simp [String.data_append]
    rw [e, List.count_append, List.count_cons_self, ih2, List.count_eq_zero_of_not_mem hl,
      List.length_cons]
    omega

/-! ## The claims -/

/-- C2. AST-dump mode on an input that opens: when the parser returns a module,
the run is the parser call followed by one call of the AST renderer on that
very module and `main` returns 0; when the parser returns a null module the
renderer is not called at all and `main` returns 1. -/
theorem ast_dump_renders_once {Module : Type} (w : World Module) (path is : String)
    (hopen : w.ifstream path = some is) :
    (∀ mod, w.parse is = some mod →
        main w path Action.DumpAST = ⟨[Event.parse is, Event.dump mod], some 0⟩ ∧
        dumpCalls (main w path Action.DumpAST).trace = [mod] ∧
        (main w path Action.DumpAST).status = some 0) ∧
    (w.parse is = none →
        main w path Action.DumpAST = ⟨[Event.parse is], some 1⟩ ∧
        dumpCalls (main w path Action.DumpAST).trace = [] ∧
        (main w path Action.DumpAST).status = some 1) := by
  constructor
  · intro mod hmod
    have h : main w path Action.DumpAST = ⟨[Event.parse is, Event.dump mod], some 0⟩ := by
      simp [main, hopen, hmod]
    rw [h]
    exact ⟨rfl, rfl, rfl⟩
  · intro hnone
    have h : main w path Action.DumpAST = ⟨[Event.parse is], some 1⟩ := by
      simp [main, hopen, hnone]
    rw [h]
    exact ⟨rfl, rfl, rfl⟩

/-- The AST dump of `a.toy`, which parses, and of `bad.toy`, which does not. -/
theorem ast_dump_renders_once_witness :
    (sampleWorld.ifstream "a.toy" = some "x = 1" ∧ sampleWorld.parse "x = 1" = some "module" ∧
      main sampleWorld "a.toy" Action.DumpAST
        = ⟨[Event.parse "x = 1", Event.dump "module"], some 0⟩ ∧
      dumpCalls (main sampleWorld "a.toy" Action.DumpAST).trace = ["module"] ∧
      (main sampleWorld "a.toy" Action.DumpAST).status = some 0) ∧
    (sampleWorld.ifstream "bad.toy" = some "x = " ∧ sampleWorld.parse "x = " = none ∧
      main sampleWorld "bad.toy" Action.DumpAST = ⟨[Event.parse "x = "], some 1⟩ ∧
      dumpCalls (main sampleWorld "bad.toy" Action.DumpAST).trace = [] ∧
      (main sampleWorld "bad.toy" Action.DumpAST).status = some 1) :=
  ⟨⟨by decide, by decide,
      (ast_dump_renders_once sampleWorld "a.toy" "x = 1" (by decide)).1 "module" (by decide)⟩,
    ⟨by decide, by decide,
      (ast_dump_renders_once sampleWorld "bad.toy" "x = " (by decide)).2 (by decide)⟩⟩

/-- C3. When the input cannot be opened, whatever the emission mode: `main`
returns 1, the error stream receives exactly the line `cannot open '<path>'`,
nothing is written to the standard output, neither the lexer nor the parser
nor the AST renderer is called, and the run is the same for every mode (the
mode is not looked at). -/
theorem open_failure_is_fatal {Module : Type} (w : World Module) (path : String)
    (act : Action) (hfail : w.ifstream path = none) :
    (main w path act).status = some 1 ∧
    stderr (main w path act).trace = "cannot open '" ++ path ++ "'" ++ "\n" ∧
    stdout (main w path act).trace = "" ∧
    lexCalls (main w path act).trace = 0 ∧
    parseCalls (main w path act).trace = 0 ∧
    dumpCalls (main w path act).trace = [] ∧
    (∀ act2 : Action, main w path act2 = main w path act) := by
  have h : ∀ a : Action, main w path a =
      ⟨[Event.cerr "cannot open '", Event.cerr path, Event.cerr "'", Event.cerr "\n"],
        some 1⟩ := by
    intro a
    simp [main, hfail]
  refine ⟨by rw [h], ?_, by rw [h]; rfl, by rw [h]; rfl, by rw [h]; rfl, by rw [h]; rfl, ?_⟩
  · rw [h]
    simp [stderr, String.append_assoc]
  · intro act2
    rw [h, h]

/-- The token dump of a file that does not exist. -/
theorem open_failure_is_fatal_witness :
    sampleWorld.ifstream "missing.toy" = none ∧
    ((main sampleWorld "missing.toy" Action.DumpTokens).status = some 1 ∧
    stderr (main sampleWorld "missing.toy" Action.DumpTokens).trace
      = "cannot open '" ++ "missing.toy" ++ "'" ++ "\n" ∧
    stdout (main sampleWorld "missing.toy" Action.DumpTokens).trace = "" ∧
    lexCalls (main sampleWorld "missing.toy" Action.DumpTokens).trace = 0 ∧
    parseCalls (main sampleWorld "missing.toy" Action.DumpTokens).trace = 0 ∧
    dumpCalls (main sampleWorld "missing.toy" Action.DumpTokens).trace = [] ∧
    (∀ act2 : Action,
      main sampleWorld "missing.toy" act2 = main sampleWorld "missing.toy" Action.DumpTokens)) :=
  ⟨by decide, open_failure_is_fatal sampleWorld "missing.toy" Action.DumpTokens (by decide)⟩

/-- C5. With no `-emit` flag the action is `None`, and on an input that opens
`main` returns 0 after writing the one notice line to the error stream; it
writes nothing to the standard output and calls neither the lexer, the parser
nor the AST renderer, so the run is the same whatever lexer, parser and file
content it is given. -/
theorem unspecified_mode_is_noop {Module : Type} (w : World Module) (path is : String)
    (hopen : w.ifstream path = some is) :
    emit_action none = some Action.None ∧
    (main w path Action.None).status = some 0 ∧
    stderr (main w path Action.None).trace
      = "No action specified (parsing only?), use -emit=<action>" ++ "\n" ∧
    stdout (main w path Action.None).trace = "" ∧
    lexCalls (main w path Action.None).trace = 0 ∧
    parseCalls (main w path Action.None).trace = 0 ∧
    dumpCalls (main w path Action.None).trace = [] ∧
    (∀ (w2 : World Module) (is2 : String), w2.ifstream path = some is2 →
      main w2 path Action.None = main w path Action.None) := by
  have h : ∀ (v : World Module) (c : String), v.ifstream path = some c →
      main v path Action.None =
        ⟨[Event.cerr "No action specified (parsing only?), use -emit=<action>",
          Event.cerr "\n"], some 0⟩ := by
    intro v c hv
    simp [main, hv]
  refine ⟨rfl, ?_, ?_, ?_, ?_, ?_, ?_, ?_⟩
  · rw [h w is hopen]
  · rw [h w is hopen]; simp [stderr]
  · rw [h w is hopen]; rfl
  · rw [h w is hopen]; rfl
  · rw [h w is hopen]; rfl
  · rw [h w is hopen]; rfl
  · intro w2 is2 h2
    rw [h w is hopen, h w2 is2 h2]

/-- The run without `-emit` on `a.toy`, in two worlds with different collaborators. -/
theorem unspecified_mode_is_noop_witness :
    sampleWorld.ifstream "a.toy" = some "x = 1" ∧
    multiLineWorld.ifstream "a.toy" = some "\"a\nb\"" ∧
    (main sampleWorld "a.toy" Action.None).status = some 0 ∧
    stderr (main sampleWorld "a.toy" Action.None).trace
      = "No action specified (parsing only?), use -emit=<action>" ++ "\n" ∧
    stdout (main sampleWorld "a.toy" Action.None).trace = "" ∧
    lexCalls (main sampleWorld "a.toy" Action.None).trace = 0 ∧
    parseCalls (main sampleWorld "a.toy" Action.None).trace = 0 ∧
    dumpCalls (main sampleWorld "a.toy" Action.None).trace = [] ∧
    main multiLineWorld "a.toy" Action.None = main sampleWorld "a.toy" Action.None :=
  ⟨by decide, by decide,
    (unspecified_mode_is_noop sampleWorld "a.toy" "x = 1" (by decide)).2.1,
    (unspecified_mode_is_noop sampleWorld "a.toy" "x = 1" (by decide)).2.2.1,
    (unspecified_mode_is_noop sampleWorld "a.toy" "x = 1" (by decide)).2.2.2.1,
    (unspecified_mode_is_noop sampleWorld "a.toy" "x = 1" (by decide)).2.2.2.2.1,
    (unspecified_mode_is_noop sampleWorld "a.toy" "x = 1" (by decide)).2.2.2.2.2.1,
    (unspecified_mode_is_noop sampleWorld "a.toy" "x = 1" (by decide)).2.2.2.2.2.2.1,
    (unspecified_mode_is_noop sampleWorld "a.toy" "x = 1" (by decide)).2.2.2.2.2.2.2
      multiLineWorld "\"a\nb\"" (by decide)⟩

/-- C6. The path `-`, which is also the default of the positional argument, is
handed to `std::ifstream` like any other path and the standard input is never
consulted: in a world where no file can be opened and the standard input holds
a program, the token dump of `-` fails with `cannot open '-'`, returns 1 and
never calls the lexer; and no run of `main` depends on the content of the
standard input. -/
theorem dash_is_opened_as_a_file :
    filename none = "-" ∧
    noFileWorld.stdin = "x = 1" ∧
    main noFileWorld (filename none) Action.DumpTokens
      = ⟨[Event.cerr "cannot open '", Event.cerr "-", Event.cerr "'", Event.cerr "\n"],
          some 1⟩ ∧
    stderr (main noFileWorld (filename none) Action.DumpTokens).trace = "cannot open '-'\n" ∧
    lexCalls (main noFileWorld (filename none) Action.DumpTokens).trace = 0 ∧
    (∀ (w : World String) (input path : String) (act : Action),
      main { w with stdin := input } path act = main w path act) := by
  refine ⟨by decide, by decide, by decide, by decide, by decide, ?_⟩
  intro w input path act
  rfl

/-- C10. In every run the lexer and the parser are called at most once in
total; the lexer is called only in token-dump mode and the parser only in
AST-dump mode; the AST renderer is called at most once, and when it is called
the run is exactly the parser call followed by the renderer call on the module
the parser returned. -/
theorem branches_are_disjoint {Module : Type} (w : World Module) (path : String)
    (act : Action) :
    lexCalls (main w path act).trace + parseCalls (main w path act).trace ≤ 1 ∧
    (0 < lexCalls (main w path act).trace → act = Action.DumpTokens) ∧
    (0 < parseCalls (main w path act).trace → act = Action.DumpAST) ∧
    (dumpCalls (main w path act).trace).length ≤ 1 ∧
    (∀ mod ∈ dumpCalls (main w path act).trace,
      ∃ is, w.ifstream path = some is ∧ w.parse is = some mod ∧
        (main w path act).trace = [Event.parse is, Event.dump mod]) := by
  cases hopen : w.ifstream path with
  | none =>
    have h : main w path act =
        ⟨[Event.cerr "cannot open '", Event.cerr path, Event.cerr "'", Event.cerr "\n"],
          some 1⟩ := by
      simp [main, hopen]
    rw [h]
    simp [lexCalls, parseCalls, dumpCalls]
  | some is =>
    cases act with
    | None =>
      have h : main w path Action.None =
          ⟨[Event.cerr "No action specified (parsing only?), use -emit=<action>",
            Event.cerr "\n"], some 0⟩ := by
        simp [main, hopen]
      rw [h]
      simp [lexCalls, parseCalls, dumpCalls]
    | DumpTokens =>
      have h : main w path Action.DumpTokens
          = dumpTokens w.cxa_demangle (w.lex is) [Event.lex is] := by
        simp [main, hopen]
      obtain ⟨post, hpost, hall⟩ := dumpTokens_trace w.cxa_demangle (w.lex is)
        ([Event.lex is] : List (Event Module))
      rw [h, hpost, lexCalls_append, parseCalls_append, dumpCalls_append,
        lexCalls_couts post hall, parseCalls_couts post hall, dumpCalls_couts post hall]
      simp [lexCalls, parseCalls, dumpCalls]
    | DumpAST =>
      cases hparse : w.parse is with
      | none =>
        have h : main w path Action.DumpAST = ⟨[Event.parse is], some 1⟩ := by
          simp [main, hopen, hparse]
        rw [h]
        simp [lexCalls, parseCalls, dumpCalls]
      | some mod =>
        have h : main w path Action.DumpAST = ⟨[Event.parse is, Event.dump mod], some 0⟩ := by
          simp [main, hopen, hparse]
        rw [h]
        simp [lexCalls, parseCalls, dumpCalls, hparse]

/-- C4. When the demangler honours its ABI contract, `main` returns 0 or 1, and
it returns 1 exactly when the input could not be opened or the mode is the
AST dump and the parser returned a null module. -/
theorem exit_status_characterisation {Module : Type} (w : World Module) (path : String)
    (act : Action) (habi : AbiContract w.cxa_demangle) :
    ((main w path act).status = some 0 ∨ (main w path act).status = some 1) ∧
    ((main w path act).status = some 1 ↔
      (w.ifstream path = none ∨
        (act = Action.DumpAST ∧ ∃ is, w.ifstream path = some is ∧ w.parse is = none))) := by
  cases hopen : w.ifstream path with
  | none =>
    have h : (main w path act).status = some 1 := by simp [main, hopen]
    rw [h]
    simp
  | some is =>
    cases act with
    | None =>
      have h : (main w path Action.None).status = some 0 := by simp [main, hopen]
      rw [h]
      simp
    | DumpTokens =>
      have h : (main w path Action.DumpTokens).status = some 0 := by
        have h0 : main w path Action.DumpTokens
            = dumpTokens w.cxa_demangle (w.lex is) [Event.lex is] := by
          simp [main, hopen]
        rw [h0]
        exact dumpTokens_status w.cxa_demangle habi _ _
      rw [h]
      simp
    | DumpAST =>
      cases hparse : w.parse is with
      | none =>
        have h : (main w path Action.DumpAST).status = some 1 := by
          simp [main, hopen, hparse]
        rw [h]
        simp [hparse]
      | some mod =>
        have h : (main w path Action.DumpAST).status = some 0 := by
          simp [main, hopen, hparse]
        rw [h]
        simp [hparse]

/-- The status of the token dump of `a.toy`. -/
theorem exit_status_characterisation_witness :
    AbiContract sampleWorld.cxa_demangle ∧
    (((main sampleWorld "a.toy" Action.DumpTokens).status = some 0 ∨
      (main sampleWorld "a.toy" Action.DumpTokens).status = some 1) ∧
    ((main sampleWorld "a.toy" Action.DumpTokens).status = some 1 ↔
      (sampleWorld.ifstream "a.toy" = none ∨
        (Action.DumpTokens = Action.DumpAST ∧
          ∃ is, sampleWorld.ifstream "a.toy" = some is ∧ sampleWorld.parse is = none)))) :=
  ⟨sampleDemangle_contract,
    exit_status_characterisation sampleWorld "a.toy" Action.DumpTokens sampleDemangle_contract⟩

/-- C1. Token-dump mode on an input that opens, with a demangler that honours
its ABI contract: every token has a display name, the standard output is the
concatenation, in the lexer's order, of `[` kind name `] ` text and a line
terminator for each token, and `main` returns 0; for the empty token sequence
the output is empty. -/
theorem token_dump_output {Module : Type} (w : World Module) (path is : String)
    (hopen : w.ifstream path = some is) (habi : AbiContract w.cxa_demangle) :
    ∃ name : Token → String,
      (∀ t, kindName w.cxa_demangle t = some (name t)) ∧
      stdout (main w path Action.DumpTokens).trace
        = String.join ((w.lex is).map fun t => "[" ++ name t ++ "] " ++ t.text ++ "\n") ∧
      (main w path Action.DumpTokens).status = some 0 ∧
      (w.lex is = [] → stdout (main w path Action.DumpTokens).trace = "") := by
  obtain ⟨name, hname⟩ := kindName_total w.cxa_demangle habi
  have h0 : main w path Action.DumpTokens
      = dumpTokens w.cxa_demangle (w.lex is) [Event.lex is] := by
    simp [main, hopen]
  obtain ⟨h1, h2⟩ := stdout_dumpTokens w.cxa_demangle name (w.lex is)
    ([Event.lex is] : List (Event Module)) (fun t _ => hname t)
  have hout : stdout (main w path Action.DumpTokens).trace
      = String.join ((w.lex is).map fun t => "[" ++ name t ++ "] " ++ t.text ++ "\n") := by
    rw [h0, h1]
    simp [stdout]
  refine ⟨name, hname, hout, by rw [h0]; exact h2, ?_⟩
  intro hnil
  rw [hout, hnil]
  rfl

/-- The token dump of `a.toy` and of the empty file `empty.toy`. -/
theorem token_dump_output_witness :
    (sampleWorld.ifstream "a.toy" = some "x = 1" ∧ AbiContract sampleWorld.cxa_demangle ∧
      ∃ name : Token → String,
        (∀ t, kindName sampleWorld.cxa_demangle t = some (name t)) ∧
        stdout (main sampleWorld "a.toy" Action.DumpTokens).trace
          = String.join ((sampleWorld.lex "x = 1").map
              fun t => "[" ++ name t ++ "] " ++ t.text ++ "\n") ∧
        (main sampleWorld "a.toy" Action.DumpTokens).status = some 0 ∧
        (sampleWorld.lex "x = 1" = [] →
          stdout (main sampleWorld "a.toy" Action.DumpTokens).trace = "")) ∧
    (sampleWorld.ifstream "empty.toy" = some "" ∧ sampleWorld.lex "" = [] ∧
      stdout (main sampleWorld "empty.toy" Action.DumpTokens).trace = "") :=
  ⟨⟨by decide, sampleDemangle_contract,
      token_dump_output sampleWorld "a.toy" "x = 1" (by decide) sampleDemangle_contract⟩,
    ⟨by decide, by decide,
      (token_dump_output sampleWorld "empty.toy" "" (by decide) sampleDemangle_contract).elim
        (fun _ h => h.2.2.2 (by decide))⟩⟩

/-- C9. For a demangler that honours its ABI contract: `demangle` returns the
resolved name when the status is 0, returns the raw name unchanged when the
status is not 0, and always returns a string; and in token-dump mode a token
whose name does not resolve is printed under its raw name while `main` still
returns 0 and the tokens before and after it are printed exactly as they are
printed on their own. -/
theorem demangle_falls_back_to_raw_name {Module : Type} (cxa : String → CxaResult)
    (habi : AbiContract cxa) :
    (∀ name s, (cxa name).status = 0 → (cxa name).res = some s →
      demangle cxa name = some s) ∧
    (∀ name, (cxa name).status ≠ 0 → demangle cxa name = some name) ∧
    (∀ name, ∃ s, demangle cxa name = some s) ∧
    (∀ (w : World Module) (path is : String) (pre post : List Token) (t : Token),
      w.cxa_demangle = cxa → w.ifstream path = some is → w.lex is = pre ++ t :: post →
      (cxa t.typeid_name).status ≠ 0 →
      (main w path Action.DumpTokens).status = some 0 ∧
      stdout (main w path Action.DumpTokens).trace
        = stdout (dumpTokens cxa pre ([] : List (Event Module))).trace
          ++ ("[" ++ t.typeid_name ++ "] " ++ t.text ++ "\n")
          ++ stdout (dumpTokens cxa post ([] : List (Event Module))).trace) := by
  have hraw : ∀ name, (cxa name).status ≠ 0 → demangle cxa name = some name := by
    intro name hst
    simp [demangle, hst]
  refine ⟨?_, hraw, demangle_isSome cxa habi, ?_⟩
  · intro name s hst hres
    simp [demangle, hst, hres]
  · intro w path is pre post t hw hopen hlex hst
    obtain ⟨name, hname⟩ := kindName_total cxa habi
    have hn : ∀ (ts : List Token), ∀ u ∈ ts, demangle cxa u.typeid_name = some (name u) :=
      fun _ u _ => hname u
    have ht : name t = t.typeid_name := by
      have h1 := hname t
      rw [kindName, hraw t.typeid_name hst] at h1
      exact (Option.some.inj h1).symm
    have h0 : main w path Action.DumpTokens
        = dumpTokens cxa (pre ++ t :: post) [Event.lex is] := by
      simp [main, hopen, hw, hlex]
    obtain ⟨hall, hstat⟩ := stdout_dumpTokens cxa name (pre ++ t :: post)
      ([Event.lex is] : List (Event Module)) (hn _)
    obtain ⟨hpre, _⟩ := stdout_dumpTokens cxa name pre ([] : List (Event Module)) (hn _)
    obtain ⟨hpost, _⟩ := stdout_dumpTokens cxa name post ([] : List (Event Module)) (hn _)
    refine ⟨by rw [h0]; exact hstat, ?_⟩
    rw [h0, hall, hpre, hpost, List.map_append, join_append, List.map_cons, join_cons, ht]
    simp [stdout, String.append_assoc]

/-- The token dump of `a.toy`, whose second token has a name that does not resolve. -/
theorem demangle_falls_back_to_raw_name_witness :
    AbiContract sampleDemangle ∧
    sampleWorld.cxa_demangle = sampleDemangle ∧
    sampleWorld.ifstream "a.toy" = some "x = 1" ∧
    sampleWorld.lex "x = 1" = [⟨"3Foo", "x"⟩] ++ ⟨"Bar", "="⟩ :: [] ∧
    (sampleDemangle (⟨"Bar", "="⟩ : Token).typeid_name).status ≠ 0 ∧
    ((main sampleWorld "a.toy" Action.DumpTokens).status = some 0 ∧
      stdout (main sampleWorld "a.toy" Action.DumpTokens).trace
        = stdout (dumpTokens sampleDemangle [⟨"3Foo", "x"⟩] ([] : List (Event String))).trace
          ++ ("[" ++ (⟨"Bar", "="⟩ : Token).typeid_name ++ "] "
              ++ (⟨"Bar", "="⟩ : Token).text ++ "\n")
          ++ stdout (dumpTokens sampleDemangle [] ([] : List (Event String))).trace) :=
  ⟨sampleDemangle_contract, rfl, by decide, by decide, by decide,
    (demangle_falls_back_to_raw_name sampleDemangle sampleDemangle_contract).2.2.2
      sampleWorld "a.toy" "x = 1" [⟨"3Foo", "x"⟩] [] ⟨"Bar", "="⟩ rfl
      (by decide) (by decide) (by decide)⟩

/-- C7, as stated, fails: a single token whose literal text holds a line
break is printed on two lines, the second of which does not match the
pattern. -/
theorem token_dump_line_break_counterexample :
    (multiLineWorld.lex "\"a\nb\"").length = 1 ∧
    lineTerminators (stdout (main multiLineWorld "s.toy" Action.DumpTokens).trace) = 2 ∧
    outputLines (stdout (main multiLineWorld "s.toy" Action.DumpTokens).trace)
      = ["[Foo] a", "b"] ∧
    ¬ MatchesLine "b" := by
  refine ⟨by decide, by decide, by decide, ?_⟩
  rintro ⟨kind, text, h, _⟩
  have hd := congrArg String.data h
  simp [String.data_append] at hd

/-- C7, amended. Token-dump mode on an input that opens, when no literal text
holds a line break and every token has a non-empty display name without a
line break: the output consists of exactly one line per token, in the
lexer's order, the line of a token being `[` kind name `] ` text, and every
line matches the pattern `\[.+\] .*`. -/
theorem token_dump_lines {Module : Type} (w : World Module) (path is : String)
    (name : Token → String) (hopen : w.ifstream path = some is)
    (hname : ∀ t ∈ w.lex is, kindName w.cxa_demangle t = some (name t) ∧
      name t ≠ "" ∧ '\n' ∉ (name t).data)
    (htext : ∀ t ∈ w.lex is, '\n' ∉ t.text.data) :
    outputLines (stdout (main w path Action.DumpTokens).trace)
      = (w.lex is).map (fun t => tokenLine (name t) t) ∧
    (outputLines (stdout (main w path Action.DumpTokens).trace)).length = (w.lex is).length ∧
    lineTerminators (stdout (main w path Action.DumpTokens).trace) = (w.lex is).length ∧
    (∀ line ∈ outputLines (stdout (main w path Action.DumpTokens).trace), MatchesLine line) := by
  have h0 : main w path Action.DumpTokens
      = dumpTokens w.cxa_demangle (w.lex is) [Event.lex is] := by
    simp [main, hopen]
  obtain ⟨h1, _⟩ := stdout_dumpTokens w.cxa_demangle name (w.lex is)
    ([Event.lex is] : List (Event Module)) (fun t ht => (hname t ht).1)
  have hout : stdout (main w path Action.DumpTokens).trace
      = String.join (((w.lex is).map fun t => tokenLine (name t) t).map fun l => l ++ "\n") := by
    rw [h0, h1, List.map_map]
    simp [stdout, tokenLine, Function.comp_def]
  have hfree : ∀ l ∈ (w.lex is).map (fun t => tokenLine (name t) t), '\n' ∉ l.data := by
    intro l hl
    obtain ⟨t, ht, rfl⟩ := List.mem_map.mp hl
    have hk := (hname t ht).2.2
    have hx := htext t ht
    simp [tokenLine, String.data_append, hk, hx]
  have hlines := outputLines_join _ hfree
  have hcount := lineTerminators_join _ hfree
  rw [← hout] at hlines hcount
  refine ⟨hlines, by rw [hlines, List.length_map], by rw [hcount, List.length_map], ?_⟩
  intro line hline
  rw [hlines] at hline
  obtain ⟨t, ht, rfl⟩ := List.mem_map.mp hline
  exact ⟨name t, t.text, rfl, (hname t ht).2.1, (hname t ht).2.2, htext t ht⟩

/-- The two lines of the token dump of `a.toy`. -/
theorem token_dump_lines_witness :
    sampleWorld.ifstream "a.toy" = some "x = 1" ∧
    (∀ t ∈ sampleWorld.lex "x = 1",
      kindName sampleWorld.cxa_demangle t
        = some ((fun u : Token => if u.typeid_name = "3Foo" then "Foo" else u.typeid_name) t) ∧
      (fun u : Token => if u.typeid_name = "3Foo" then "Foo" else u.typeid_name) t ≠ "" ∧
      '\n' ∉ ((fun u : Token => if u.typeid_name = "3Foo" then "Foo" else u.typeid_name) t).data) ∧
    (∀ t ∈ sampleWorld.lex "x = 1", '\n' ∉ t.text.data) ∧
    (outputLines (stdout (main sampleWorld "a.toy" Action.DumpTokens).trace)
      = (sampleWorld.lex "x = 1").map (fun t => tokenLine
          ((fun u : Token => if u.typeid_name = "3Foo" then "Foo" else u.typeid_name) t) t) ∧
    (outputLines (stdout (main sampleWorld "a.toy" Action.DumpTokens).trace)).length
      = (sampleWorld.lex "x = 1").length ∧
    lineTerminators (stdout (main sampleWorld "a.toy" Action.DumpTokens).trace)
      = (sampleWorld.lex "x = 1").length ∧
    (∀ line ∈ outputLines (stdout (main sampleWorld "a.toy" Action.DumpTokens).trace),
      MatchesLine line)) :=
  ⟨by decide, by decide, by decide,
    token_dump_lines sampleWorld "a.toy" "x = 1"
      (fun u : Token => if u.typeid_name = "3Foo" then "Foo" else u.typeid_name)
      (by decide) (by decide) (by decide)⟩

/-- C8, as stated, fails: two tokens whose type identifiers differ (two
block-scope classes `T` of `f()`) are printed under the same display name,
because the readable form leaves the discriminator out. -/
theorem kind_names_not_distinct_counterexample :
    (⟨"Z1fvE1T", "a"⟩ : Token).typeid_name ≠ (⟨"Z1fvE1T_0", "b"⟩ : Token).typeid_name ∧
    kindName sampleDemangle ⟨"Z1fvE1T", "a"⟩ = some "f()::T" ∧
    kindName sampleDemangle ⟨"Z1fvE1T_0", "b"⟩ = some "f()::T" ∧
    ¬ (∀ (cxa : String → CxaResult) (t1 t2 : Token), AbiContract cxa →
        t1.typeid_name ≠ t2.typeid_name → kindName cxa t1 ≠ kindName cxa t2) := by
  refine ⟨by decide, by decide, by decide, ?_⟩
  intro h
  exact h sampleDemangle ⟨"Z1fvE1T", "a"⟩ ⟨"Z1fvE1T_0", "b"⟩ sampleDemangle_contract
    (by decide) (by decide)

/-- C8, amended. The display name of a token depends only on its type
identifier: tokens with the same identifier get the same name whatever their
texts.  Tokens with different identifiers get different names when neither
identifier resolves (both are printed raw), and when both resolve their names
differ exactly when the resolved strings differ. -/
theorem kind_name_depends_on_typeid (cxa : String → CxaResult) :
    (∀ t1 t2 : Token, t1.typeid_name = t2.typeid_name → kindName cxa t1 = kindName cxa t2) ∧
    (∀ t1 t2 : Token, t1.typeid_name ≠ t2.typeid_name →
      (cxa t1.typeid_name).status ≠ 0 → (cxa t2.typeid_name).status ≠ 0 →
      kindName cxa t1 = some t1.typeid_name ∧ kindName cxa t2 = some t2.typeid_name ∧
      kindName cxa t1 ≠ kindName cxa t2) ∧
    (∀ t1 t2 : Token,
      (cxa t1.typeid_name).status = 0 → (cxa t2.typeid_name).status = 0 →
      (kindName cxa t1 ≠ kindName cxa t2 ↔
        (cxa t1.typeid_name).res ≠ (cxa t2.typeid_name).res)) := by
  refine ⟨?_, ?_, ?_⟩
  · intro t1 t2 h
    simp [kindName, h]
  · intro t1 t2 hne h1 h2
    have e1 : kindName cxa t1 = some t1.typeid_name := by simp [kindName, demangle, h1]
    have e2 : kindName cxa t2 = some t2.typeid_name := by simp [kindName, demangle, h2]
    refine ⟨e1, e2, ?_⟩
    rw [e1, e2]
    exact fun h => hne (Option.some.inj h)
  · intro t1 t2 h1 h2
    simp [kindName, demangle, h1, h2]

/-- Display names under the sample demangler: same identifier, two raw identifiers, two resolved ones. -/
theorem kind_name_depends_on_typeid_witness :
    (kindName sampleDemangle ⟨"3Foo", "x"⟩ = kindName sampleDemangle ⟨"3Foo", "y"⟩) ∧
    (kindName sampleDemangle ⟨"Bar", "x"⟩ = some "Bar" ∧
      kindName sampleDemangle ⟨"Baz", "x"⟩ = some "Baz" ∧
      kindName sampleDemangle ⟨"Bar", "x"⟩ ≠ kindName sampleDemangle ⟨"Baz", "x"⟩) ∧
    (kindName sampleDemangle ⟨"3Foo", "x"⟩ ≠ kindName sampleDemangle ⟨"Z1fvE1T", "x"⟩ ↔
      (sampleDemangle "3Foo").res ≠ (sampleDemangle "Z1fvE1T").res) :=
  ⟨(kind_name_depends_on_typeid sampleDemangle).1 ⟨"3Foo", "x"⟩ ⟨"3Foo", "y"⟩ rfl,
    (kind_name_depends_on_typeid sampleDemangle).2.1 ⟨"Bar", "x"⟩ ⟨"Baz", "x"⟩
      (by decide) (by decide) (by decide),
    (kind_name_depends_on_typeid sampleDemangle).2.2 ⟨"3Foo", "x"⟩ ⟨"Z1fvE1T", "x"⟩
      (by decide) (by decide)⟩

end ToyDump
